import Mathlib

/-!
Verification of the chat client core of the apparel-agent frontend
(`chatbot-ui/app/page.js`).  The embedding models:

* the content parser `renderContent` (regex scan for `<img src="…" alt="…" …>`),
* the gallery URL-list split used by `ProductGallery`,
* the session submit/resolve state machine of `handleSubmit`,
* the JSON decoding of response bodies and the COD-receipt unwrap,
* the toast-notification set operations.

Strings are modelled as `List Char` (`String.data`); JavaScript values
produced by `JSON.parse` are modelled by the inductive `JVal`, with
`Option JVal` standing for a possibly-`undefined` value.
-/

namespace ApparelChat

/-! ## Character-list helpers -/

/-- Drop the literal `lit` from the front of `s`; `none` when `s` does not
start with `lit`. -/
def dropLit : List Char → List Char → Option (List Char)
  | [], s => some s
  | _ :: _, [] => none
  | l :: ls, c :: cs => if c = l then dropLit ls cs else none

/-- Split `s` at the first occurrence of the character `q`:
returns the part strictly before `q` and the part strictly after it.
`none` when `q` does not occur.  This is exactly what a greedy `[^q]*q`
regex fragment consumes. -/
def splitAtChar (q : Char) : List Char → Option (List Char × List Char)
  | [] => none
  | c :: cs =>
    if c = q then some ([], cs)
    else
      match splitAtChar q cs with
      | none => none
      | some (a, b) => some (c :: a, b)

/-! ## Content parser (`renderContent`, page.js lines 189–216)

The regex `/<img src="([^"]*)" alt="([^"]*)"[^>]*>/g` is embedded by
`tryMatchAt`: because `[^"]*` is a greedy run of non-quote characters
followed by a forced `"`, each capture extends exactly to the next quote,
and `[^>]*>` consumes exactly up to and including the next `>`; the regex
engine's backtracking can never produce any other overall match, so the
match at a given start position is deterministic. -/

/-- A content segment as produced by `renderContent`: plain text pushed via
`content.substring`, or a `ProductGallery` element built from the two regex
captures.  `span` records the exact characters consumed by the match
(`match[0]`, the interval from `match.index` to `regex.lastIndex`). -/
inductive Seg
  | plainText (text : List Char)
  | gallery (imagesStr alt span : List Char)
deriving DecidableEq

/-- Result of matching the image-tag regex at the head of the input. -/
structure TagMatch where
  src : List Char
  alt : List Char
  span : List Char
  rest : List Char
deriving DecidableEq

def litOpen : List Char := "<img src=\"".data

def litAlt : List Char := " alt=\"".data

/-- Match `<img src="([^"]*)" alt="([^"]*)"[^>]*>` at the head of `s`. -/
def tryMatchAt (s : List Char) : Option TagMatch :=
  (dropLit litOpen s).bind fun r1 =>
  (splitAtChar '"' r1).bind fun p2 =>
  (dropLit litAlt p2.2).bind fun r3 =>
  (splitAtChar '"' r3).bind fun p4 =>
  (splitAtChar '>' p4.2).bind fun p5 =>
  some ⟨p2.1, p4.1,
    litOpen ++ p2.1 ++ '"' :: litAlt ++ p4.1 ++ '"' :: p5.1 ++ ['>'],
    p5.2⟩

/-- Emit the plain-text part accumulated (in reverse) since the last match,
mirroring `if (match.index > lastIndex) parts.push(content.substring(...))`:
nothing is emitted when the accumulated text is empty. -/
def flushAcc (acc : List Char) : List Seg :=
  if acc = [] then [] else [Seg.plainText acc.reverse]

/-- The `while ((match = imgRegex.exec(content)) !== null)` loop.  `acc`
holds the characters scanned since the previous `lastIndex` (reversed);
`fuel` is a structural-recursion bound.  Since every step consumes at least
one input character, `fuel = s.length` never runs out (see
`scanAux_fuel_irrelevant`); the fuel-exhaustion branch is unreachable. -/
def scanAux : Nat → List Char → List Char → List Seg
  | _, acc, [] => flushAcc acc
  | 0, acc, s => flushAcc (s.reverse ++ acc)
  | fuel + 1, acc, c :: cs =>
    match tryMatchAt (c :: cs) with
    | some m => flushAcc acc ++ Seg.gallery m.src m.alt m.span :: scanAux fuel [] m.rest
    | none => scanAux fuel (c :: acc) cs

/-- `renderContent` (page.js lines 189–216): scan the whole message content,
then `return parts.length > 0 ? parts : content`. -/
def renderContent (s : List Char) : List Seg :=
  let parts := scanAux s.length [] s
  if parts.length > 0 then parts else [Seg.plainText s]

/-- The text a segment accounts for: its own text for `PlainText`, and the
exact consumed span (`match[0]`) for a gallery. -/
def segChars : Seg → List Char
  | Seg.plainText t => t
  | Seg.gallery _ _ span => span

/-- Does the image-tag regex match anywhere in `s` (at any start position)?
`hasMatch s = false` exactly when `imgRegex.exec` never finds a match. -/
def hasMatch : List Char → Bool
  | [] => false
  | c :: cs => (tryMatchAt (c :: cs)).isSome || hasMatch cs

/-! ## Gallery URL list (`ProductGallery`, page.js lines 64–65)

`imagesStr ? imagesStr.split(',').map(url => url.trim()).filter(url =>
url.length > 0) : []`. -/

/-- JavaScript `String.prototype.split(',')`: note `"".split(',') = [""]`. -/
def splitComma : List Char → List (List Char)
  | [] => [[]]
  | c :: cs =>
    if c = ',' then [] :: splitComma cs
    else
      match splitComma cs with
      | [] => [[c]]
      | g :: gs => (c :: g) :: gs

/-- The whitespace class of JavaScript `String.prototype.trim`: WhiteSpace
(TAB, VT, FF, SP, NBSP, ZWNBSP and the Unicode space-separator category Zs:
U+1680, U+2000–U+200A, U+202F, U+205F, U+3000) plus the LineTerminators
(LF, CR, LS, PS). -/
def isJsWs (c : Char) : Bool :=
  c = ' ' || c = '\t' || c = '\n' || c = '\r' || c = '\x0b' || c = '\x0c' ||
  c.toNat = 0xa0 || c.toNat = 0x1680 ||
  (decide (0x2000 ≤ c.toNat) && decide (c.toNat ≤ 0x200a)) ||
  c.toNat = 0x2028 || c.toNat = 0x2029 || c.toNat = 0x202f ||
  c.toNat = 0x205f || c.toNat = 0x3000 || c.toNat = 0xfeff

/-- JavaScript `String.prototype.trim`. -/
def trimChars (s : List Char) : List Char :=
  ((s.dropWhile isJsWs).reverse.dropWhile isJsWs).reverse

/-- The URL list `ProductGallery` derives from its `imagesStr` prop
(page.js line 65); the empty string is falsy, so it yields `[]`. -/
def galleryImages (imagesStr : List Char) : List (List Char) :=
  if imagesStr = [] then []
  else ((splitComma imagesStr).map trimChars).filter fun u => u.length > 0

/-! ## JavaScript values and `JSON.parse`

`JVal` models the values `JSON.parse` can produce; `Option JVal` models a
possibly-`undefined` JavaScript value.  Numbers are kept as a decimal
mantissa/exponent pair, which is enough to decide JavaScript truthiness
(`0` is falsy).  The parser follows the JSON grammar: the four JSON
whitespace characters, `null`/`true`/`false`, strings with the standard
escapes (unescaped control characters rejected), numbers without leading
zeros, arrays and objects.  It is written with explicit fuel so that it
is structurally recursive; the fuel `length + 2` can never run out because
every recursive call strictly shrinks the input. -/

inductive JVal
  | jnull
  | jbool (b : Bool)
  | jnum (mantissa : Int) (exp10 : Int)
  | jstr (s : List Char)
  | jarr (elems : List JVal)
  | jobj (fields : List (List Char × JVal))

def isJsonWs (c : Char) : Bool :=
  c = ' ' || c = '\t' || c = '\n' || c = '\r'

def skipWs : List Char → List Char
  | [] => []
  | c :: cs => if isJsonWs c then skipWs cs else c :: cs

def hexVal (c : Char) : Option Nat :=
  if '0' ≤ c ∧ c ≤ '9' then some (c.toNat - 48)
  else if 'a' ≤ c ∧ c ≤ 'f' then some (c.toNat - 97 + 10)
  else if 'A' ≤ c ∧ c ≤ 'F' then some (c.toNat - 65 + 10)
  else none

/-- Single-character JSON escapes (`\uXXXX` is handled separately). -/
def escChar (e : Char) : Option Char :=
  if e = '"' then some '"'
  else if e = '\\' then some '\\'
  else if e = '/' then some '/'
  else if e = 'b' then some '\x08'
  else if e = 'f' then some '\x0c'
  else if e = 'n' then some '\n'
  else if e = 'r' then some '\r'
  else if e = 't' then some '\t'
  else none

/-- Parse the body of a JSON string after the opening quote, up to and
including the closing quote. -/
def parseStringBody : List Char → Option (List Char × List Char)
  | [] => none
  | '"' :: rest => some ([], rest)
  | '\\' :: 'u' :: h1 :: h2 :: h3 :: h4 :: rest =>
    match hexVal h1, hexVal h2, hexVal h3, hexVal h4 with
    | some a, some b, some c, some d =>
      (parseStringBody rest).map fun p =>
        (Char.ofNat (((a * 16 + b) * 16 + c) * 16 + d) :: p.1, p.2)
    | _, _, _, _ => none
  | '\\' :: e :: rest =>
    match escChar e with
    | some ch => (parseStringBody rest).map fun p => (ch :: p.1, p.2)
    | none => none
  | '\\' :: rest => (fun _ => none) rest
  | c :: rest =>
    if c.toNat < 32 then none
    else (parseStringBody rest).map fun p => (c :: p.1, p.2)

def takeDigits : List Char → List Char × List Char
  | [] => ([], [])
  | c :: cs =>
    if c.isDigit then
      match takeDigits cs with
      | (d, r) => (c :: d, r)
    else ([], c :: cs)

def digitsToNat (ds : List Char) : Nat :=
  ds.foldl (fun n c => n * 10 + (c.toNat - 48)) 0

/-- Optional `.digits` fraction: value, digit count, and rest. -/
def parseFrac : List Char → Option (Nat × Nat × List Char)
  | '.' :: r =>
    match takeDigits r with
    | ([], _) => none
    | (ds, r2) => some (digitsToNat ds, ds.length, r2)
  | s => some (0, 0, s)

/-- Optional `e`/`E` exponent: signed value and rest. -/
def parseExp : List Char → Option (Int × List Char)
  | [] => some (0, [])
  | c :: r =>
    if c = 'e' ∨ c = 'E' then
      let sr : Int × List Char :=
        match r with
        | '+' :: rr => (1, rr)
        | '-' :: rr => (-1, rr)
        | rr => (1, rr)
      match takeDigits sr.2 with
      | ([], _) => none
      | (ds, r2) => some (sr.1 * (digitsToNat ds : Int), r2)
    else some (0, c :: r)

/-- JSON number at the head of the input (no leading whitespace). -/
def parseNumber (s : List Char) : Option (JVal × List Char) :=
  let ns : Bool × List Char :=
    match s with
    | '-' :: r => (true, r)
    | _ => (false, s)
  match takeDigits ns.2 with
  | ([], _) => none
  | (ds, r1) =>
    if 1 < ds.length ∧ ds.headI = '0' then none
    else
      match parseFrac r1 with
      | none => none
      | some (fv, fc, r2) =>
        match parseExp r2 with
        | none => none
        | some (ev, r3) =>
          let mant : Int := (digitsToNat ds) * (10 ^ fc : Nat) + fv
          some (JVal.jnum (if ns.1 then -mant else mant) (ev - fc), r3)

/-- JSON value parser.  Array and object element loops are expressed by
re-entering the parser on a synthetic `'['`/`'{'`-prefixed input: after
`elem ,` the remaining elements parse exactly like the array `[rest`,
except that a closing bracket directly after the comma is rejected first —
a comma must be followed by a further element or member, so trailing
commas (`[1,]`, `{"a":1,}`) fail exactly as in `JSON.parse`.
Every recursive call receives a strictly shorter input, so `fuel` one
larger than the input length never runs out. -/
def parseVal : Nat → List Char → Option (JVal × List Char)
  | 0, _ => none
  | fuel + 1, s =>
    match skipWs s with
    | [] => none
    | '"' :: r =>
      match parseStringBody r with
      | some (cs, rest) => some (JVal.jstr cs, rest)
      | none => none
    | '[' :: r =>
      match skipWs r with
      | ']' :: rest => some (JVal.jarr [], rest)
      | r1 =>
        match parseVal fuel r1 with
        | some (v, r2) =>
          match skipWs r2 with
          | ',' :: r3 =>
            match skipWs r3 with
            | ']' :: _ => none
            | _ =>
              match parseVal fuel ('[' :: r3) with
              | some (JVal.jarr vs, r4) => some (JVal.jarr (v :: vs), r4)
              | _ => none
          | ']' :: r3 => some (JVal.jarr [v], r3)
          | _ => none
        | none => none
    | '{' :: r =>
      match skipWs r with
      | '}' :: rest => some (JVal.jobj [], rest)
      | '"' :: r1 =>
        match parseStringBody r1 with
        | some (key, r2) =>
          match skipWs r2 with
          | ':' :: r3 =>
            match parseVal fuel r3 with
            | some (v, r4) =>
              match skipWs r4 with
              | ',' :: r5 =>
                match skipWs r5 with
                | '}' :: _ => none
                | _ =>
                  match parseVal fuel ('{' :: r5) with
                  | some (JVal.jobj fs, r6) =>
                    some (JVal.jobj ((key, v) :: fs), r6)
                  | _ => none
              | '}' :: r5 => some (JVal.jobj [(key, v)], r5)
              | _ => none
            | none => none
          | _ => none
        | none => none
      | _ => none
    | c :: r =>
      match dropLit "true".data (c :: r) with
      | some rest => some (JVal.jbool true, rest)
      | none =>
        match dropLit "false".data (c :: r) with
        | some rest => some (JVal.jbool false, rest)
        | none =>
          match dropLit "null".data (c :: r) with
          | some rest => some (JVal.jnull, rest)
          | none =>
            if c = '-' ∨ c.isDigit then parseNumber (c :: r) else none

/-- `JSON.parse`: a complete JSON text, allowing trailing whitespace. -/
def jsonParse (s : List Char) : Option JVal :=
  match parseVal (s.length + 2) s with
  | some (v, rest) => if skipWs rest = [] then some v else none
  | none => none

/-! ## JavaScript value helpers -/

/-- Field access on a parsed JSON value, `undefined` (`none`) on missing
fields and on non-objects.  `JSON.parse` applies later duplicate keys last,
so lookup prefers the last occurrence. -/
def getFieldList : List (List Char × JVal) → List Char → Option JVal
  | [], _ => none
  | (k, v) :: rest, key =>
    match getFieldList rest key with
    | some r => some r
    | none => if k = key then some v else none

def getField : JVal → List Char → Option JVal
  | JVal.jobj fields, key => getFieldList fields key
  | _, _ => none

/-- JavaScript truthiness of a `JSON.parse` result. -/
def truthyV : JVal → Bool
  | JVal.jnull => false
  | JVal.jbool b => b
  | JVal.jnum m _ => m != 0
  | JVal.jstr s => s != []
  | JVal.jarr _ => true
  | JVal.jobj _ => true

/-- JavaScript truthiness of a possibly-`undefined` value. -/
def truthy : Option JVal → Bool
  | none => false
  | some v => truthyV v

/-- JavaScript `String.prototype.includes`: is `sub` a contiguous substring
of the argument? -/
def hasSub (sub : List Char) : List Char → Bool
  | [] => (dropLit sub []).isSome
  | c :: cs => (dropLit sub (c :: cs)).isSome || hasSub sub cs

/-! ## Reply pipeline of `handleSubmit` (page.js lines 164–176) -/

def codMarker : List Char := "COD_SUCCESS".data

/-- `let reply = data.response || data.content` (line 164). -/
def extractReply (data : JVal) : Option JVal :=
  if truthy (getField data "response".data) then getField data "response".data
  else getField data "content".data

/-- The COD-receipt unwrap (lines 166–174).  The surrounding `try {} catch
(e) {}` makes every failure leave `reply` unchanged: a non-string reply is
skipped by the `typeof` guard, a `JSON.parse` exception is swallowed, and a
parsed payload whose `payment_url` is not the literal `"COD_SUCCESS"` takes
the untouched branch.  (A parsed `null` would throw on property access and
be swallowed too; `getField` returns `none` there, with the same result.) -/
def codUnwrap (reply : Option JVal) : Option JVal :=
  match reply with
  | some (JVal.jstr s) =>
    if hasSub codMarker s then
      match jsonParse s with
      | none => some (JVal.jstr s)
      | some parsed =>
        match getField parsed "payment_url".data with
        | some (JVal.jstr p) =>
          if p = codMarker then getField parsed "message".data
          else some (JVal.jstr s)
        | _ => some (JVal.jstr s)
    else some (JVal.jstr s)
  | r => r

def apologyMsg : List Char := "I apologize, I couldn't connect.".data

/-- `reply = reply || "I apologize, I couldn't connect."` (line 176). -/
def finalizeReply (r : Option JVal) : JVal :=
  match r with
  | some v => if truthyV v then v else JVal.jstr apologyMsg
  | none => JVal.jstr apologyMsg

/-! ## Conversation session (`handleSubmit`, page.js lines 136–187)

The `async` function is embedded as two pure transitions: `submitDispatch`
is the synchronous prefix up to and including the `fetch` dispatch (it
returns the new state and the outgoing multipart request, or `none` when
the submission is the silent no-op of line 140), and `submitResolve` is the
continuation that runs when the awaited request resolves. -/

/-- A pending attachment; only its `name` ever reaches the chat history. -/
structure JsFile where
  name : List Char
  bytes : List Nat

structure ChatMessage where
  role : List Char
  content : JVal

structure SessionState where
  query : List Char
  chatHistory : List ChatMessage
  threadId : Option JVal
  isLoading : Bool
  mode : List Char
  selectedFile : Option JsFile

/-- The multipart form body built on lines 153–157. -/
structure ChatRequest where
  query : List Char
  mode : List Char
  thread_id : Option JVal
  file : Option JsFile

/-- `const textToSend = overrideText || query` (line 138): JavaScript `||`
falls back to the input buffer for a `null` *and* for an empty override. -/
def effectiveText (override : Option (List Char)) (query : List Char) :
    List Char :=
  match override with
  | some o => if o = [] then query else o
  | none => query

/-- Synchronous prefix of `handleSubmit` (lines 136–157). -/
def submitDispatch (st : SessionState) (override : Option (List Char)) :
    Option (SessionState × ChatRequest) :=
  let textToSend := effectiveText override st.query
  if (trimChars textToSend).isEmpty && st.selectedFile.isNone then none
  else
    let displayContent :=
      match st.selectedFile with
      | some f => textToSend ++ " [Attached: ".data ++ f.name ++ "]".data
      | none => textToSend
    some
      ({ st with
          chatHistory :=
            st.chatHistory ++ [⟨"human".data, JVal.jstr displayContent⟩]
          query := []
          selectedFile := none
          isLoading := true },
       { query := if textToSend = [] then " ".data else textToSend
         mode := st.mode
         thread_id := if truthy st.threadId then st.threadId else none
         file := st.selectedFile })

inductive FetchResult
  | ok (body : List Char)
  | transportError

def connectionErrorMsg : List Char := "Connection error. Please try again.".data

/-- Continuation of `handleSubmit` after `fetch` resolves (lines 159–186).
`response.json()` rejecting, the transport failing, and the `TypeError`
from `data.response` on a parsed `null` all land in the `catch` block; the
`finally` block clears `isLoading` on every path. -/
def submitResolve (st : SessionState) (r : FetchResult) : SessionState :=
  match r with
  | FetchResult.transportError =>
    { st with
      chatHistory :=
        st.chatHistory ++ [⟨"ai".data, JVal.jstr connectionErrorMsg⟩]
      isLoading := false }
  | FetchResult.ok body =>
    match jsonParse body with
    | none =>
      { st with
        chatHistory :=
          st.chatHistory ++ [⟨"ai".data, JVal.jstr connectionErrorMsg⟩]
        isLoading := false }
    | some JVal.jnull =>
      { st with
        chatHistory :=
          st.chatHistory ++ [⟨"ai".data, JVal.jstr connectionErrorMsg⟩]
        isLoading := false }
    | some data =>
      let reply := finalizeReply (codUnwrap (extractReply data))
      let tid := getField data "thread_id".data
      { st with
        chatHistory := st.chatHistory ++ [⟨"ai".data, reply⟩]
        threadId := if truthy tid then tid else st.threadId
        isLoading := false }

/-- The form's send button (line 287):
`disabled={isLoading || (!query && !selectedFile)}`. -/
def sendButtonDisabled (st : SessionState) : Bool :=
  st.isLoading || (st.query.isEmpty && st.selectedFile.isNone)

/-! ## Toast notifications (page.js lines 124–134) -/

structure ToastItem where
  id : Nat
  title : List Char
  body : List Char
deriving DecidableEq

/-- The static trend catalog (page.js lines 54–61). -/
def trendsCatalog : List (List Char × List Char) :=
  [("Trending".data, "Floral prints are up 20% this week!".data),
   ("Restock Alert".data, "The Verona Vine is back in Medium.".data),
   ("Style Tip".data, "Pair Crimson Skirts with white heels.".data),
   ("New Arrival".data, "Summer Collection is now live.".data),
   ("Best Seller".data, "Pink Rhapsody is selling out fast!".data),
   ("Fabric Note".data, "New Linen collection arriving soon.".data)]

/-- One scheduler tick (lines 126–128): pick the trend at the drawn random
index (`k` models the draw; any value selects in-range via `%`), stamp it
with the fresh id `now`, and append it to the active toast set. -/
def toastTick (ts : List ToastItem) (k : Nat) (now : Nat) : List ToastItem :=
  let t := trendsCatalog.getD (k % trendsCatalog.length) ([], [])
  ts ++ [⟨now, t.1, t.2⟩]

/-- The scheduled removal (line 130): `prev.filter(t => t.id !== id)`. -/
def removeToast (ts : List ToastItem) (tid : Nat) : List ToastItem :=
  ts.filter fun t => t.id != tid

/-- Did this fetch outcome take a `catch`-block path?  True for a transport
error, for a body `response.json()` cannot parse, and for the body `null`
(whose `data.response` access throws a `TypeError`). -/
def resolveFailed : FetchResult → Bool
  | FetchResult.transportError => true
  | FetchResult.ok body =>
    match jsonParse body with
    | none => true
    | some JVal.jnull => true
    | some _ => false

/-! ## Concrete states and response bodies used in witnesses -/

def demoFile : JsFile := ⟨"photo.png".data, [1, 2, 3]⟩

def demoState : SessionState :=
  { query := "hello".data
    chatHistory := []
    threadId := none
    isLoading := false
    mode := "standard".data
    selectedFile := none }

/-- A session with a request in flight (`pendingRequest`/`isLoading` true). -/
def loadingState : SessionState :=
  { query := []
    chatHistory := [⟨"human".data, JVal.jstr "first".data⟩]
    threadId := none
    isLoading := true
    mode := "standard".data
    selectedFile := none }

def attachState : SessionState :=
  { demoState with query := "look".data, selectedFile := some demoFile }

def attachStateAfter : SessionState :=
  { query := []
    chatHistory := [⟨"human".data, JVal.jstr "look [Attached: photo.png]".data⟩]
    threadId := none
    isLoading := true
    mode := "standard".data
    selectedFile := none }

def attachReq : ChatRequest :=
  { query := "look".data
    mode := "standard".data
    thread_id := none
    file := some demoFile }

def threadState : SessionState :=
  { demoState with threadId := some (JVal.jstr "T1".data) }

def threadStateAfter : SessionState :=
  { query := []
    chatHistory := [⟨"human".data, JVal.jstr "hello".data⟩]
    threadId := some (JVal.jstr "T1".data)
    isLoading := true
    mode := "standard".data
    selectedFile := none }

def threadReq : ChatRequest :=
  { query := "hello".data
    mode := "standard".data
    thread_id := some (JVal.jstr "T1".data)
    file := none }

def emptyTidBody : List Char := "\x7b\"response\":\"ok\",\"thread_id\":\"\"\x7d".data

def tidBody : List Char := "\x7b\"response\":\"ok\",\"thread_id\":\"T9\"\x7d".data

def tidData : JVal :=
  JVal.jobj [("response".data, JVal.jstr "ok".data),
             ("thread_id".data, JVal.jstr "T9".data)]

def receiptReply : List Char :=
  "\x7b\"payment_url\":\"COD_SUCCESS\",\"message\":\"Order #5 confirmed\"\x7d".data

def receiptData : JVal :=
  JVal.jobj [("payment_url".data, JVal.jstr "COD_SUCCESS".data),
             ("message".data, JVal.jstr "Order #5 confirmed".data)]

def falsyRespData : JVal :=
  JVal.jobj [("response".data, JVal.jstr []),
             ("content".data, JVal.jstr "hi".data)]

def demoToasts : List ToastItem :=
  [⟨1, "Trending".data, "x".data⟩, ⟨2, "Style Tip".data, "y".data⟩]

/-- A body `JSON.parse` rejects (trailing comma), though it looks close
to a valid object. -/
def trailingCommaBody : List Char := "\x7b\"x\":1,\x7d".data

/-- A receipt-like reply with a trailing comma: it contains the
`COD_SUCCESS` marker but `JSON.parse` throws on it. -/
def trailingCommaReceipt : List Char :=
  "\x7b\"payment_url\":\"COD_SUCCESS\",\"message\":\"x\",\x7d".data

/-- A thread-id-carrying body spoiled by a trailing comma: `JSON.parse`
throws, so the program never reads its `thread_id`. -/
def trailingCommaTidBody : List Char :=
  "\x7b\"response\":\"ok\",\"thread_id\":\"T9\",\x7d".data

/-! ## Helper lemmas -/

theorem dropLit_eq {lit s r : List Char} (h : dropLit lit s = some r) :
    s = lit ++ r := by
  induction lit generalizing s with
  | nil =>
    simp [dropLit] at h
    simp [h]
  | cons l ls ih =>
    cases s with
    | nil => simp [dropLit] at h
    | cons c cs =>
      by_cases hc : c = l
      · simp only [dropLit, if_pos hc] at h
        simp [hc, ih h]
      · simp [dropLit, hc] at h

theorem splitAtChar_eq {q : Char} {s a b : List Char}
    (h : splitAtChar q s = some (a, b)) : s = a ++ q :: b ∧ q ∉ a := by
  induction s generalizing a b with
  | nil => simp [splitAtChar] at h
  | cons c cs ih =>
    by_cases hc : c = q
    · simp only [splitAtChar, if_pos hc, Option.some.injEq, Prod.mk.injEq] at h
      obtain ⟨rfl, rfl⟩ := h
      simp [hc]
    · simp only [splitAtChar, if_neg hc] at h
      cases hsp : splitAtChar q cs with
      | none => rw [hsp] at h; simp at h
      | some p =>
        obtain ⟨a', b'⟩ := p
        rw [hsp] at h
        simp at h
        obtain ⟨rfl, rfl⟩ := h
        obtain ⟨h1, h2⟩ := ih hsp
        refine ⟨by simp [h1], ?_⟩
        simp only [List.mem_cons]
        rintro (rfl | hmem)
        · exact hc rfl
        · exact h2 hmem

theorem dropLit_append (lit r : List Char) : dropLit lit (lit ++ r) = some r := by
  induction lit with
  | nil => simp [dropLit]
  | cons l ls ih => simp [dropLit, ih]

theorem splitAtChar_append {q : Char} {a : List Char} (b : List Char)
    (h : q ∉ a) : splitAtChar q (a ++ q :: b) = some (a, b) := by
  induction a with
  | nil => simp [splitAtChar]
  | cons c cs ih =>
    have hc : ¬ c = q := by
      intro hq; exact h (by simp [hq])
    have hcs : q ∉ cs := fun hm => h (by simp [hm])
    simp [splitAtChar, hc, ih hcs]

theorem tryMatchAt_spec {s : List Char} {m : TagMatch}
    (h : tryMatchAt s = some m) :
    m.span ++ m.rest = s ∧ m.rest.length < s.length := by
  unfold tryMatchAt at h
  cases h1 : dropLit litOpen s with
  | none => rw [h1] at h; simp at h
  | some r1 =>
    rw [h1, Option.some_bind] at h
    cases h2 : splitAtChar '"' r1 with
    | none => rw [h2] at h; simp at h
    | some p2 =>
      rw [h2, Option.some_bind] at h
      cases h3 : dropLit litAlt p2.2 with
      | none => rw [h3] at h; simp at h
      | some r3 =>
        rw [h3, Option.some_bind] at h
        cases h4 : splitAtChar '"' r3 with
        | none => rw [h4] at h; simp at h
        | some p4 =>
          rw [h4, Option.some_bind] at h
          cases h5 : splitAtChar '>' p4.2 with
          | none => rw [h5] at h; simp at h
          | some p5 =>
            rw [h5, Option.some_bind] at h
            have e1 := dropLit_eq h1
            have e2 := (splitAtChar_eq
              (show splitAtChar '"' r1 = some (p2.1, p2.2) from h2)).1
            have e3 := dropLit_eq h3
            have e4 := (splitAtChar_eq
              (show splitAtChar '"' r3 = some (p4.1, p4.2) from h4)).1
            have e5 := (splitAtChar_eq
              (show splitAtChar '>' p4.2 = some (p5.1, p5.2) from h5)).1
            have hm : m = ⟨p2.1, p4.1,
                litOpen ++ p2.1 ++ '"' :: litAlt ++ p4.1 ++ '"' :: p5.1 ++ ['>'],
                p5.2⟩ := (Option.some.inj h).symm
            subst hm
            have hspan : (litOpen ++ p2.1 ++ '"' :: litAlt ++ p4.1 ++
                '"' :: p5.1 ++ ['>']) ++ p5.2 = s := by
              rw [e1, e2, e3, e4, e5]
              simp
            refine ⟨hspan, ?_⟩
            have : 0 < (litOpen ++ p2.1 ++ '"' :: litAlt ++ p4.1 ++
                '"' :: p5.1 ++ ['>']).length := by
              simp [litOpen]
            calc p5.2.length
                < (litOpen ++ p2.1 ++ '"' :: litAlt ++ p4.1 ++
                    '"' :: p5.1 ++ ['>']).length + p5.2.length := by omega
              _ = s.length := by
                  rw [← hspan]
                  simp only [List.length_append, List.length_cons]

theorem tryMatchAt_span {s : List Char} {m : TagMatch}
    (h : tryMatchAt s = some m) : m.span ++ m.rest = s :=
  (tryMatchAt_spec h).1

theorem tryMatchAt_rest_lt {s : List Char} {m : TagMatch}
    (h : tryMatchAt s = some m) : m.rest.length < s.length :=
  (tryMatchAt_spec h).2

theorem flushAcc_chars (acc : List Char) :
    ((flushAcc acc).map segChars).flatten = acc.reverse := by
  by_cases h : acc = []
  · simp [flushAcc, h]
  · simp [flushAcc, h, segChars]

theorem scanAux_chars (fuel : Nat) (acc s : List Char) :
    ((scanAux fuel acc s).map segChars).flatten = acc.reverse ++ s := by
  induction fuel generalizing acc s with
  | zero =>
    cases s with
    | nil => simp [scanAux, flushAcc_chars]
    | cons c cs => simp [scanAux, flushAcc_chars]
  | succ fuel ih =>
    cases s with
    | nil => simp [scanAux, flushAcc_chars]
    | cons c cs =>
      cases hm : tryMatchAt (c :: cs) with
      | some m =>
        have hspan := tryMatchAt_span hm
        simp only [scanAux, hm, List.map_append, List.map_cons,
          List.flatten_append, List.flatten_cons, flushAcc_chars, segChars, ih]
        rw [List.reverse_nil, List.nil_append, hspan]
      | none =>
        simp only [scanAux, hm, ih]
        simp

theorem scanAux_no_match {s : List Char} (h : hasMatch s = false) :
    ∀ fuel acc, scanAux fuel acc s = flushAcc (s.reverse ++ acc) := by
  induction s with
  | nil => intro fuel acc; cases fuel <;> simp [scanAux]
  | cons c cs ih =>
    intro fuel acc
    have hnm : tryMatchAt (c :: cs) = none := by
      cases hmm : tryMatchAt (c :: cs) with
      | none => rfl
      | some m => simp [hasMatch, hmm] at h
    have htail : hasMatch cs = false := by
      simp only [hasMatch, Bool.or_eq_false_iff] at h
      exact h.2
    cases fuel with
    | zero => rfl
    | succ fuel =>
      simp only [scanAux, hnm]
      rw [ih htail fuel (c :: acc)]
      simp

theorem scanAux_fuel_irrelevant {f1 f2 : Nat} {s acc : List Char}
    (h1 : s.length ≤ f1) (h2 : s.length ≤ f2) :
    scanAux f1 acc s = scanAux f2 acc s := by
  induction f1 generalizing f2 acc s with
  | zero =>
    have : s = [] := List.length_eq_zero.mp (Nat.le_zero.mp h1)
    subst this
    cases f2 <;> rfl
  | succ f1 ih =>
    cases s with
    | nil => cases f2 <;> rfl
    | cons c cs =>
      cases f2 with
      | zero => simp at h2
      | succ f2 =>
        cases hm : tryMatchAt (c :: cs) with
        | some m =>
          have hr := tryMatchAt_rest_lt hm
          simp only [scanAux, hm]
          simp only [List.length_cons] at h1 h2 hr
          rw [@ih f2 m.rest [] (by omega) (by omega)]
        | none =>
          simp only [scanAux, hm]
          simp only [List.length_cons] at h1 h2
          exact @ih f2 cs (c :: acc) (by omega) (by omega)

theorem renderContent_reconstruct (s : List Char) :
    ((renderContent s).map segChars).flatten = s := by
  unfold renderContent
  by_cases h : (scanAux s.length [] s).length > 0
  · simpa [h] using scanAux_chars s.length [] s
  · simp [h, segChars]

theorem renderContent_no_match {s : List Char} (h : hasMatch s = false) :
    renderContent s = [Seg.plainText s] := by
  unfold renderContent
  rw [scanAux_no_match h s.length []]
  cases s with
  | nil => simp [flushAcc]
  | cons c cs =>
    have hne : ((c :: cs).reverse ++ ([] : List Char)) ≠ [] := by simp
    simp only [flushAcc, if_neg hne]
    simp


/-- `submitResolve` only ever touches `chatHistory`, `threadId` and
`isLoading`; in particular it never restores an attachment, and it always
ends with `isLoading = false` (the `finally` block). -/
theorem submitResolve_frame (st : SessionState) (r : FetchResult) :
    (submitResolve st r).selectedFile = st.selectedFile ∧
    (submitResolve st r).query = st.query ∧
    (submitResolve st r).mode = st.mode ∧
    (submitResolve st r).isLoading = false := by
  cases r with
  | transportError => exact ⟨rfl, rfl, rfl, rfl⟩
  | ok body =>
    cases h : jsonParse body with
    | none => simp [submitResolve, h]
    | some v => cases v <;> simp [submitResolve, h]

/-- `JSON.parse` rejects a comma directly followed by the closing bracket;
so does the model, while the same texts without the trailing comma still
parse. -/
theorem jsonParse_trailing_comma :
    jsonParse "[1,]".data = none ∧
    jsonParse "\x7b\"a\":1,\x7d".data = none ∧
    jsonParse "[1]".data = some (JVal.jarr [JVal.jnum 1 0]) ∧
    jsonParse "\x7b\"a\":1\x7d".data =
      some (JVal.jobj [("a".data, JVal.jnum 1 0)]) :=
  ⟨rfl, rfl, rfl, rfl⟩

/-- `String.prototype.trim` removes the Unicode space separators (category
Zs), e.g. U+3000 and U+2003; so does the model's `trimChars`. -/
theorem trimChars_unicode_ws :
    trimChars "　 x  ".data = "x".data ∧
    trimChars "　".data = [] :=
  ⟨rfl, rfl⟩

/-! ## Claims -/

/-- **C1** (code bug).  The claim states that any `submit` while
`pendingRequest` is true is rejected as a no-op, regardless of how submit
is invoked.  In the code, `handleSubmit` (lines 136–157) never consults
`isLoading`: only the form's send button is disabled while loading
(line 287), and the ticker-item `onClick` (line 301) calls
`handleSubmit(null, "Tell me about …")` unguarded.  Evaluating the model at
a state with a request in flight shows the submit is accepted: a Human
message is appended (history grows) and a second request is dispatched,
contradicting the claim. -/
theorem c1_pending_submit_accepted :
    sendButtonDisabled loadingState = true ∧
    loadingState.isLoading = true ∧
    (submitDispatch loadingState
        (some "Tell me about Pink Rhapsody".data)).isSome = true ∧
    (submitDispatch loadingState (some "Tell me about Pink Rhapsody".data)).map
        (fun p => p.1.chatHistory.length) =
      some (loadingState.chatHistory.length + 1) :=
  ⟨rfl, rfl, rfl, rfl⟩

/-- **C2** (confirmed).  Parser total coverage: for every input, the texts
of the emitted `PlainText` segments together with the exact spans consumed
by the matched image tags concatenate, in order, back to the input; and
when the image-tag regex matches nowhere, the whole input is one
`PlainText` segment.  `renderContent` is a total function, so parsing never
fails. -/
theorem c2_parser_total_coverage (s : List Char) :
    ((renderContent s).map segChars).flatten = s ∧
    (hasMatch s = false → renderContent s = [Seg.plainText s]) :=
  ⟨renderContent_reconstruct s, fun h => renderContent_no_match h⟩

theorem c2_parser_total_coverage_witness :
    ((renderContent "See <img src=\"a.jpg\" alt=\"x\"> now".data).map
        segChars).flatten = "See <img src=\"a.jpg\" alt=\"x\"> now".data ∧
    renderContent "no tags".data = [Seg.plainText "no tags".data] :=
  ⟨(c2_parser_total_coverage "See <img src=\"a.jpg\" alt=\"x\"> now".data).1,
   (c2_parser_total_coverage "no tags".data).2 rfl⟩

/-- **C3** (confirmed).  COD-receipt unwrap, for a string reply `s`:
if `s` contains `COD_SUCCESS` and parses as JSON whose `payment_url` equals
the literal `"COD_SUCCESS"`, the reply becomes the payload's `message`
field; if the substring is present but JSON parsing fails, or the parsed
`payment_url` differs, or the substring is absent, the reply is unchanged. -/
theorem c3_cod_receipt_unwrap (s : List Char) :
    (∀ v, hasSub codMarker s = true → jsonParse s = some v →
        getField v "payment_url".data = some (JVal.jstr codMarker) →
        codUnwrap (some (JVal.jstr s)) = getField v "message".data) ∧
    (hasSub codMarker s = true → jsonParse s = none →
        codUnwrap (some (JVal.jstr s)) = some (JVal.jstr s)) ∧
    (∀ v, hasSub codMarker s = true → jsonParse s = some v →
        getField v "payment_url".data ≠ some (JVal.jstr codMarker) →
        codUnwrap (some (JVal.jstr s)) = some (JVal.jstr s)) ∧
    (hasSub codMarker s = false →
        codUnwrap (some (JVal.jstr s)) = some (JVal.jstr s)) := by
  refine ⟨?_, ?_, ?_, ?_⟩
  · intro v hsub hjson hpay
    simp [codUnwrap, hsub, hjson, hpay]
  · intro hsub hjson
    simp [codUnwrap, hsub, hjson]
  · intro v hsub hjson hpay
    simp only [codUnwrap, hsub, if_true, hjson]
    cases hp : getField v "payment_url".data with
    | none => rfl
    | some pv =>
      cases pv with
      | jstr p =>
        rw [hp] at hpay
        have hne : ¬ p = codMarker := fun hpc => hpay (by rw [hpc])
        simp [hne]
      | jnull => rfl
      | jbool b => rfl
      | jnum m e => rfl
      | jarr xs => rfl
      | jobj fs => rfl
  · intro hsub
    simp [codUnwrap, hsub]

theorem c3_cod_receipt_unwrap_witness :
    codUnwrap (some (JVal.jstr receiptReply)) =
      some (JVal.jstr "Order #5 confirmed".data) ∧
    codUnwrap (some (JVal.jstr "I like COD_SUCCESS as a word".data)) =
      some (JVal.jstr "I like COD_SUCCESS as a word".data) ∧
    codUnwrap (some (JVal.jstr trailingCommaReceipt)) =
      some (JVal.jstr trailingCommaReceipt) := by
  refine ⟨?_, ?_, ?_⟩
  · have h := (c3_cod_receipt_unwrap receiptReply).1 receiptData rfl rfl rfl
    rw [h]; rfl
  · exact (c3_cod_receipt_unwrap "I like COD_SUCCESS as a word".data).2.1 rfl rfl
  · exact (c3_cod_receipt_unwrap trailingCommaReceipt).2.1 rfl rfl

/-- **C4** counterexample.  The claim says the effective text is the
override whenever one is provided; but `overrideText || query` treats an
empty override as absent, so `submit` with override `""` and input buffer
`"hello"` is not the claimed no-op: it submits `"hello"`. -/
theorem c4_empty_override_counterexample :
    effectiveText (some []) demoState.query = "hello".data ∧
    (submitDispatch demoState (some [])).map (fun p => p.1.chatHistory) =
      some [⟨"human".data, JVal.jstr "hello".data⟩] :=
  ⟨rfl, rfl⟩

/-- **C4** amended: the effective text is the override if provided *and
non-empty* (JavaScript `||`), else the input buffer; and the submit is a
silent no-op (`none`: no state change, nothing dispatched) exactly when
the effective text is blank after trimming and no attachment is present. -/
theorem c4_blank_submission_noop (st : SessionState) (ov : Option (List Char)) :
    (submitDispatch st ov = none ↔
      trimChars (effectiveText ov st.query) = [] ∧ st.selectedFile = none) ∧
    (∀ o, o ≠ [] → effectiveText (some o) st.query = o) ∧
    effectiveText none st.query = st.query ∧
    effectiveText (some []) st.query = st.query := by
  refine ⟨?_, ?_, rfl, by simp [effectiveText]⟩
  · have key : submitDispatch st ov = none ↔
        ((trimChars (effectiveText ov st.query)).isEmpty &&
          st.selectedFile.isNone) = true := by
      cases hb : (trimChars (effectiveText ov st.query)).isEmpty &&
          st.selectedFile.isNone
      · simp [submitDispatch, hb]
      · simp [submitDispatch, hb]
    rw [key, Bool.and_eq_true, List.isEmpty_iff, Option.isNone_iff_eq_none]
  · intro o ho
    simp [effectiveText, ho]

theorem c4_blank_submission_noop_witness :
    submitDispatch demoState (some "  ".data) = none ∧
    submitDispatch demoState (some "　".data) = none ∧
    effectiveText (some "x".data) demoState.query = "x".data :=
  ⟨(c4_blank_submission_noop demoState (some "  ".data)).1.mpr ⟨rfl, rfl⟩,
   (c4_blank_submission_noop demoState (some "　".data)).1.mpr ⟨rfl, rfl⟩,
   (c4_blank_submission_noop demoState (some "x".data)).2.1 "x".data
     (by simp)⟩

/-- **C5** (confirmed).  For every accepted submit with an attachment, the
state handed to the dispatched request already has the attachment slot
cleared (`setSelectedFile(null)` runs synchronously before `fetch`), the
request captures the file by value, the appended Human message shows the
effective text suffixed with `" [Attached: <name>]"` (only the name — the
content is a function of `f.name` alone, never the bytes), and no
resolution path ever restores the attachment. -/
theorem c5_attachment_transfer (st : SessionState) (ov : Option (List Char))
    (f : JsFile) (st' : SessionState) (req : ChatRequest)
    (hf : st.selectedFile = some f)
    (h : submitDispatch st ov = some (st', req)) :
    st'.selectedFile = none ∧
    req.file = some f ∧
    st'.chatHistory = st.chatHistory ++
      [⟨"human".data, JVal.jstr (effectiveText ov st.query ++
        " [Attached: ".data ++ f.name ++ "]".data)⟩] ∧
    st'.isLoading = true ∧
    (∀ r, (submitResolve st' r).selectedFile = none) := by
  simp only [submitDispatch, hf, Option.isNone_some, Bool.and_false,
    Bool.false_eq_true, if_false, Option.some.injEq, Prod.mk.injEq] at h
  obtain ⟨rfl, rfl⟩ := h.symm
  refine ⟨rfl, rfl, by simp, rfl, ?_⟩
  intro r
  rw [(submitResolve_frame _ r).1]

theorem c5_attachment_transfer_witness :
    submitDispatch attachState none = some (attachStateAfter, attachReq) ∧
    attachStateAfter.selectedFile = none ∧
    attachReq.file = some demoFile ∧
    (submitResolve attachStateAfter FetchResult.transportError).selectedFile =
      none := by
  have h := c5_attachment_transfer attachState none demoFile attachStateAfter
    attachReq rfl rfl
  exact ⟨rfl, h.1, h.2.1, h.2.2.2.2 FetchResult.transportError⟩

/-- **C6** (confirmed).  Every resolution of a dispatched request clears
`pendingRequest` (the `finally` block), and every transport/parse failure
path — `fetch` rejection, a body `response.json()` cannot parse, or the
`TypeError` on a `null` body — appends exactly one Assistant message with
the fixed connection-error string, leaving `threadId` untouched.  The
model's resolve step emits no further request, so there is no automatic
retry. -/
theorem c6_resolve_clears_pending (st : SessionState) (r : FetchResult) :
    (submitResolve st r).isLoading = false ∧
    (resolveFailed r = true →
      (submitResolve st r).chatHistory =
        st.chatHistory ++ [⟨"ai".data, JVal.jstr connectionErrorMsg⟩] ∧
      (submitResolve st r).threadId = st.threadId) := by
  refine ⟨(submitResolve_frame st r).2.2.2, ?_⟩
  intro hf
  cases r with
  | transportError => exact ⟨rfl, rfl⟩
  | ok body =>
    cases h : jsonParse body with
    | none => simp [submitResolve, h]
    | some v => cases v <;> simp_all [submitResolve, resolveFailed]

theorem c6_resolve_clears_pending_witness :
    (submitResolve demoState FetchResult.transportError).isLoading = false ∧
    (submitResolve demoState FetchResult.transportError).chatHistory =
      [⟨"ai".data, JVal.jstr connectionErrorMsg⟩] ∧
    (submitResolve demoState FetchResult.transportError).threadId = none ∧
    (submitResolve demoState (FetchResult.ok trailingCommaBody)).chatHistory =
      [⟨"ai".data, JVal.jstr connectionErrorMsg⟩] := by
  have h := c6_resolve_clears_pending demoState FetchResult.transportError
  have h2 := h.2 rfl
  have h3 :=
    (c6_resolve_clears_pending demoState (FetchResult.ok trailingCommaBody)).2 rfl
  exact ⟨h.1, by rw [h2.1]; rfl, by rw [h2.2]; rfl, by rw [h3.1]; rfl⟩

/-- `submitResolve` either leaves `threadId` untouched or replaces it with
a truthy value (`if (data.thread_id) setThreadId(data.thread_id)`); it
never clears it. -/
theorem submitResolve_threadId_preserved (st : SessionState) (r : FetchResult) :
    (submitResolve st r).threadId = st.threadId ∨
    truthy (submitResolve st r).threadId = true := by
  cases r with
  | transportError => exact Or.inl rfl
  | ok body =>
    cases h : jsonParse body with
    | none => exact Or.inl (by simp [submitResolve, h])
    | some v =>
      cases v with
      | jnull => exact Or.inl (by simp [submitResolve, h])
      | jbool b => exact Or.inl (by simp [submitResolve, h, getField, truthy])
      | jnum m e => exact Or.inl (by simp [submitResolve, h, getField, truthy])
      | jstr s => exact Or.inl (by simp [submitResolve, h, getField, truthy])
      | jarr xs => exact Or.inl (by simp [submitResolve, h, getField, truthy])
      | jobj fs =>
        cases ht : truthy (getField (JVal.jobj fs) "thread_id".data) with
        | false => exact Or.inl (by simp [submitResolve, h, ht])
        | true => exact Or.inr (by simp [submitResolve, h, ht])

/-- **C7** counterexample.  The claim says a response that supplies a
thread identifier always overwrites the session's `threadId`.  But
adoption is guarded by truthiness (`if (data.thread_id)`), so a response
carrying the (present, string-valued) `thread_id: ""` leaves the previous
`threadId` in place. -/
theorem c7_falsy_thread_id_counterexample :
    jsonParse emptyTidBody =
      some (JVal.jobj [("response".data, JVal.jstr "ok".data),
                       ("thread_id".data, JVal.jstr [])]) ∧
    (submitResolve threadState (FetchResult.ok emptyTidBody)).threadId =
      some (JVal.jstr "T1".data) :=
  ⟨rfl, rfl⟩

/-- **C7** amended: once a response supplies a *truthy* (e.g. non-empty
string) thread identifier, it is adopted — always overwritten, even if a
`threadId` was already set; responses with a falsy `thread_id` leave it
unchanged; `threadId` is never cleared by dispatch or resolve; every
outbound request carries the current `threadId` whenever it is truthy
(`if (threadId) formData.append('thread_id', threadId)`); and a response
whose body does not parse as JSON takes the catch path, leaving `threadId`
unchanged. -/
theorem c7_thread_continuity (st : SessionState) (body : List Char)
    (data : JVal) (r : FetchResult) (ov : Option (List Char))
    (st' : SessionState) (req : ChatRequest) :
    (jsonParse body = some data →
      truthy (getField data "thread_id".data) = true →
      (submitResolve st (FetchResult.ok body)).threadId =
        getField data "thread_id".data) ∧
    ((submitResolve st r).threadId = st.threadId ∨
      truthy (submitResolve st r).threadId = true) ∧
    (truthy st.threadId = true → truthy (submitResolve st r).threadId = true) ∧
    (submitDispatch st ov = some (st', req) →
      req.thread_id = (if truthy st.threadId then st.threadId else none) ∧
      st'.threadId = st.threadId) ∧
    (jsonParse body = none →
      (submitResolve st (FetchResult.ok body)).threadId = st.threadId) := by
  refine ⟨?_, submitResolve_threadId_preserved st r, ?_, ?_, ?_⟩
  · intro hj ht
    cases data with
    | jnull => simp [getField, truthy] at ht
    | jbool b => simp [getField, truthy] at ht
    | jnum m e => simp [getField, truthy] at ht
    | jstr s => simp [getField, truthy] at ht
    | jarr xs => simp [getField, truthy] at ht
    | jobj fs => simp [submitResolve, hj, ht]
  · intro htr
    rcases submitResolve_threadId_preserved st r with h | h
    · rw [h]; exact htr
    · exact h
  · intro h
    cases hb : (trimChars (effectiveText ov st.query)).isEmpty &&
        st.selectedFile.isNone with
    | true => simp [submitDispatch, hb] at h
    | false =>
      simp only [submitDispatch, hb, Bool.false_eq_true, if_false,
        Option.some.injEq, Prod.mk.injEq] at h
      obtain ⟨rfl, rfl⟩ := h.symm
      exact ⟨rfl, rfl⟩
  · intro hn
    simp [submitResolve, hn]

theorem c7_thread_continuity_witness :
    (submitResolve demoState (FetchResult.ok tidBody)).threadId =
      some (JVal.jstr "T9".data) ∧
    submitDispatch threadState none = some (threadStateAfter, threadReq) ∧
    threadReq.thread_id = some (JVal.jstr "T1".data) ∧
    (submitResolve threadState (FetchResult.ok trailingCommaTidBody)).threadId =
      some (JVal.jstr "T1".data) := by
  have h1 := (c7_thread_continuity demoState tidBody tidData
    FetchResult.transportError none threadStateAfter threadReq).1 rfl rfl
  have h4 := (c7_thread_continuity threadState tidBody tidData
    FetchResult.transportError none threadStateAfter threadReq).2.2.2.1 rfl
  have h5 := (c7_thread_continuity threadState trailingCommaTidBody tidData
    FetchResult.transportError none threadStateAfter threadReq).2.2.2.2 rfl
  exact ⟨by rw [h1]; rfl, rfl, by rw [h4.1]; rfl, by rw [h5]; rfl⟩

/-- **C8** counterexample.  The claim says the `content` field is used only
when the `response` field is *absent*.  But `data.response || data.content`
falls back for any falsy `response`: with `response: ""` present and
`content: "hi"`, the reply is `"hi"`. -/
theorem c8_falsy_response_counterexample :
    (getField falsyRespData "response".data).isSome = true ∧
    extractReply falsyRespData = some (JVal.jstr "hi".data) :=
  ⟨rfl, rfl⟩

/-- **C8** amended: the reply is the `response` field when that field is
truthy, and the `content` field otherwise (absent *or* falsy, e.g. the
empty string); a falsy reply after the unwrap step (empty or absent) is
replaced by the fixed apology string, so the final Assistant content is
always truthy — in particular never the empty string. -/
theorem c8_reply_extraction (data : JVal) (r : Option JVal) :
    (truthy (getField data "response".data) = true →
      extractReply data = getField data "response".data) ∧
    (truthy (getField data "response".data) = false →
      extractReply data = getField data "content".data) ∧
    (truthy r = false → finalizeReply r = JVal.jstr apologyMsg) ∧
    truthyV (finalizeReply r) = true := by
  refine ⟨?_, ?_, ?_, ?_⟩
  · intro ht; simp [extractReply, ht]
  · intro ht; simp [extractReply, ht]
  · intro ht
    cases r with
    | none => rfl
    | some v =>
      simp only [truthy] at ht
      simp [finalizeReply, ht]
  · cases r with
    | none => rfl
    | some v =>
      cases hv : truthyV v with
      | true => simp [finalizeReply, hv]
      | false =>
        simp only [finalizeReply, hv, Bool.false_eq_true, if_false]
        rfl

theorem c8_reply_extraction_witness :
    extractReply falsyRespData = some (JVal.jstr "hi".data) ∧
    finalizeReply (some (JVal.jstr [])) = JVal.jstr apologyMsg ∧
    truthyV (finalizeReply none) = true := by
  have h := c8_reply_extraction falsyRespData (some (JVal.jstr []))
  exact ⟨by rw [h.2.1 rfl]; rfl, h.2.2.1 rfl,
    (c8_reply_extraction falsyRespData none).2.2.2⟩

/-- **C9** (confirmed).  The matched tag's `URL-LIST` (the raw `src`
capture) is split on commas, each entry trimmed, empty entries discarded;
arbitrary trailing attribute junk (any `>`-free characters) between the
closing alt quote and `>` is tolerated and ignored; and the spec's example
parses exactly as claimed, with the gallery URL list `["a.jpg","b.jpg"]`. -/
theorem c9_gallery_url_split (S A J tail : List Char)
    (hS : '"' ∉ S) (hA : '"' ∉ A) (hJ : '>' ∉ J) :
    tryMatchAt (litOpen ++ S ++ '"' :: litAlt ++ A ++ '"' :: J ++ '>' :: tail) =
      some ⟨S, A, litOpen ++ S ++ '"' :: litAlt ++ A ++ '"' :: J ++ ['>'],
        tail⟩ ∧
    renderContent "Here <img src=\"a.jpg, b.jpg\" alt=\"Dress\"> nice".data =
      [Seg.plainText "Here ".data,
       Seg.gallery "a.jpg, b.jpg".data "Dress".data
         "<img src=\"a.jpg, b.jpg\" alt=\"Dress\">".data,
       Seg.plainText " nice".data] ∧
    galleryImages "a.jpg, b.jpg".data = ["a.jpg".data, "b.jpg".data] ∧
    galleryImages " a , ,b ".data = ["a".data, "b".data] := by
  refine ⟨?_, rfl, rfl, rfl⟩
  unfold tryMatchAt
  simp only [List.append_assoc, List.cons_append]
  rw [dropLit_append]
  simp only [Option.some_bind]
  rw [splitAtChar_append _ hS]
  simp only [Option.some_bind]
  rw [dropLit_append]
  simp only [Option.some_bind]
  rw [splitAtChar_append _ hA]
  simp only [Option.some_bind]
  rw [splitAtChar_append _ hJ]
  simp only [Option.some_bind]

theorem c9_gallery_url_split_witness :
    tryMatchAt (litOpen ++ "u.png".data ++ '"' :: litAlt ++ "alt text".data ++
        '"' :: " style=\"x\"".data ++ '>' :: " t".data) =
      some ⟨"u.png".data, "alt text".data,
        litOpen ++ "u.png".data ++ '"' :: litAlt ++ "alt text".data ++
          '"' :: " style=\"x\"".data ++ ['>'], " t".data⟩ :=
  (c9_gallery_url_split "u.png".data "alt text".data " style=\"x\"".data
    " t".data (by decide) (by decide) (by decide)).1

/-- **C10** (confirmed).  A scheduled removal deletes exactly the toasts
whose id matches the scheduled id, leaving every other toast present, in
the original insertion order (the filtered list is a sublist of the
original), however many toasts are alive; each tick appends exactly one
new toast at the end, leaving existing toasts untouched. -/
theorem c10_toast_set_operations (ts : List ToastItem) (tid k now : Nat) :
    List.Sublist (removeToast ts tid) ts ∧
    (∀ t, t ∈ removeToast ts tid ↔ (t ∈ ts ∧ t.id ≠ tid)) ∧
    (toastTick ts k now).dropLast = ts ∧
    (toastTick ts k now).length = ts.length + 1 := by
  refine ⟨List.filter_sublist _, ?_, ?_, by simp [toastTick]⟩
  · intro t
    simp [removeToast, List.mem_filter]
  · simp [toastTick, List.dropLast_concat]

theorem c10_toast_set_operations_witness :
    List.Sublist (removeToast demoToasts 1) demoToasts ∧
    ((⟨2, "Style Tip".data, "y".data⟩ : ToastItem) ∈ removeToast demoToasts 1 ↔
      ((⟨2, "Style Tip".data, "y".data⟩ : ToastItem) ∈ demoToasts ∧
        (2 : Nat) ≠ 1)) ∧
    (toastTick demoToasts 0 7).dropLast = demoToasts ∧
    (toastTick demoToasts 0 7).length = demoToasts.length + 1 := by
  have h := c10_toast_set_operations demoToasts 1 0 7
  exact ⟨h.1, h.2.1 _, h.2.2.1, h.2.2.2⟩

end ApparelChat
